import Mathlib

/-!
# Attendance system: face matcher, person registry and attendance ledger

A shallow embedding of `ConsoleApplication2.cpp`.

* `cv::Mat` is a matrix of integer intensities (`rows`, `cols` and a pixel function).
* The OpenCV routines the program calls (`detectMultiScale`, `rectangle`, `cvtColor`) and
  the iteration order of `std::unordered_map` are not part of the program; they are the
  fields of `Env`, and every theorem holds for every `Env`.
* The camera, the clock, the keyboard and the success of opening a file are inputs of the
  operations; the two text files and the console are lists of lines in the state.
-/

namespace FaceAttendance

/-! ## Images -/

/-- Image `cv::Mat`: `rows`, `cols` and the intensity stored at row `i`, column `j`. -/
structure Mat where
  rows : Nat
  cols : Nat
  px : Nat → Nat → Nat

/-- Rectangle `cv::Rect`. -/
structure Rect where
  x : Nat
  y : Nat
  width : Nat
  height : Nat

/-- Default-constructed `Mat()`: no rows and no columns. -/
def Mat.default : Mat := ⟨0, 0, fun _ _ => 0⟩

/-- Dimensions `Mat::size()`, as (width, height). -/
def Mat.size (m : Mat) : Nat × Nat := (m.cols, m.rows)

/-- Test `Mat::empty()`: the matrix has no element. -/
def Mat.empty (m : Mat) : Bool := m.rows == 0 || m.cols == 0

/-- Region `frame(rect)`: the sub-matrix of `m` under the rectangle `r`. -/
def Mat.roi (m : Mat) (r : Rect) : Mat :=
  ⟨r.height, r.width, fun i j => m.px (r.y + i) (r.x + j)⟩

/-- Deep copy `Mat::clone()`. -/
def Mat.clone (m : Mat) : Mat := m

/-- Absolute difference of two intensities. -/
def absdiff (a b : Nat) : Nat := if a ≤ b then b - a else a - b

/-- Sum over all positions of the squared difference of the two images' intensities:
the square of `cv::norm(a, b)` (`NORM_L2`) for two images of the same size and
element type. -/
def normSq (a b : Mat) : Nat :=
  ((List.range a.rows).map fun i =>
    ((List.range a.cols).map fun j => absdiff (a.px i j) (b.px i j) ^ 2).sum).sum

/-- Integer part of `cv::norm(a, b)`. The program compares the norm only with the
integer 1000, and the integer part of a non-negative real is below 1000 exactly when the
real is (`norm_lt_iff_real`). -/
def norm (a b : Mat) : Nat := Nat.sqrt (normSq a b)

/-- Method `SimpleFaceRecognizer::compareFaces`. -/
def compareFaces (face1 face2 : Mat) : Bool :=
  if face1.size ≠ face2.size then false
  else
    let diff := norm face1 face2
    decide (diff < 1000)

/-! ## Library behaviour -/

/-- Behaviour of the libraries the program is linked with.

* `detectMultiScale frame`: the rectangles the cascade classifier reports for `frame`;
* `rectangle frame r`: `frame` after the outline of `r` has been drawn on it;
* `cvtColor frame`: the grey-scale conversion of `frame`;
* `bucketOrder entries`: the order in which a range-`for` over the `std::unordered_map`
  visits the entries, given the entries in the order their keys were first inserted. The
  C++ standard leaves it to the implementation; it visits every entry once. -/
structure Env where
  detectMultiScale : Mat → List Rect
  rectangle : Mat → Rect → Mat
  cvtColor : Mat → Mat
  bucketOrder : List (Int × Mat) → List (Int × Mat)
  bucketOrder_perm : ∀ l, (bucketOrder l).Perm l

/-! ## Unordered maps -/

/-- Assignment `m[k] = v` on an `unordered_map<int, α>`, kept as the list of its entries in
the order their keys were first inserted: an existing key keeps its place and gets the
new value, a new key is added. -/
def assign {α : Type} (m : List (Int × α)) (k : Int) (v : α) : List (Int × α) :=
  match m with
  | [] => [(k, v)]
  | e :: rest => if e.1 = k then (k, v) :: rest else e :: assign rest k v

/-- Lookup `m.find(k)`. -/
def find {α : Type} (m : List (Int × α)) (k : Int) : Option α :=
  match m with
  | [] => none
  | e :: rest => if e.1 = k then some e.2 else find rest k

/-- The keys of the map. -/
def keys {α : Type} (m : List (Int × α)) : List Int := m.map Prod.fst

/-! ## Face matcher -/

/-- The loop of `recognize` over the entries of `faceDatabase`, in the order given. -/
def scanDatabase (face : Mat) : List (Int × Mat) → Option Int
  | [] => none
  | entry :: rest =>
    if compareFaces entry.2 face then some entry.1 else scanDatabase face rest

/-- The face region `recognize` extracts: every detected rectangle is drawn on the frame,
then the region under the first one is taken. -/
def faceRegion (env : Env) (frame : Mat) (faces : List Rect) (first : Rect) : Mat :=
  (faces.foldl env.rectangle frame).roi first

/-- Method `SimpleFaceRecognizer::recognize`: `none` is `false`, `some id` is `true` with
`id` written to the out-parameter. -/
def recognize (env : Env) (faceDatabase : List (Int × Mat)) (frame : Mat) : Option Int :=
  match env.detectMultiScale frame with
  | [] => none
  | first :: others =>
    let face := faceRegion env frame (first :: others) first
    scanDatabase face (env.bucketOrder faceDatabase)

/-- Method `SimpleFaceRecognizer::registerFace` (the in-memory part: the image file written
by `imwrite` is not read back by the program). -/
def registerFace (faceDatabase : List (Int × Mat)) (id : Int) (face : Mat) :
    List (Int × Mat) :=
  assign faceDatabase id face.clone

/-! ## Persons -/

/-- Classes `Person`, `Student` and `Teacher`: the dynamic type of a `shared_ptr<Person>`
with the fields of that type. -/
inductive Person where
  | base (name : String) (id : Int)
  | student (name : String) (id : Int) (department : String)
  | teacher (name : String) (id : Int) (subject : String)

/-- Method `Person::getId`. -/
def Person.getId : Person → Int
  | .base _ id => id
  | .student _ id _ => id
  | .teacher _ id _ => id

/-- Method `Person::getName`. -/
def Person.getName : Person → String
  | .base name _ => name
  | .student name _ _ => name
  | .teacher name _ _ => name

/-- Virtual method `getDepartment`: overridden by `Student` only. -/
def Person.getDepartment : Person → String
  | .student _ _ department => department
  | _ => ""

/-- Virtual method `getSubject`: overridden by `Teacher` only. -/
def Person.getSubject : Person → String
  | .teacher _ _ subject => subject
  | _ => ""

/-- Virtual method `display`: the lines it writes to the console. -/
def Person.display : Person → List String
  | .base name id => ["Name: " ++ name ++ ", ID: " ++ toString id]
  | .student name id department =>
    ["Name: " ++ name ++ ", ID: " ++ toString id, "Department: " ++ department]
  | .teacher name id subject =>
    ["Name: " ++ name ++ ", ID: " ++ toString id, "Subject: " ++ subject]

/-! ## The attendance system -/

/-- Constant `databasePath`. -/
def databasePath : String := "C:/project/Database/Database "

/-- Constant `attendancePath`. -/
def attendancePath : String := "C:/project/Database"

/-- The members of `AttendanceSystem` (with the `faceDatabase` of its recognizer), the
content of the details file and of the attendance file as lists of lines, and the texts
written to the console (`cout` and `cerr`), oldest first. -/
structure State where
  people : List Person
  idMap : List (Int × Person)
  faceDatabase : List (Int × Mat)
  currentFrame : Mat
  detailsFile : List String
  attendanceFile : List String
  console : List String

/-- The freshly constructed system: empty registry and face store, nothing written yet. -/
def State.init : State := ⟨[], [], [], Mat.default, [], [], []⟩

/-- Write one text to the console. -/
def say (s : State) (text : String) : State :=
  { s with console := s.console ++ [text] }

/-- Write several texts to the console. -/
def sayAll (s : State) (texts : List String) : State :=
  { s with console := s.console ++ texts }

/-- Method `AttendanceSystem::savePersonDetails`; `opens` tells whether the details file
could be opened for append. -/
def savePersonDetails (s : State) (person : Person) (opens : Bool) : State :=
  let filename := databasePath ++ "person_details.txt"
  if !opens then
    say s ("Failed to open person details file: " ++ filename)
  else
    let start := "ID: " ++ toString person.getId ++ ", Name: " ++ person.getName
    let line :=
      match person with
      | .student _ _ _ => start ++ ", Department: " ++ person.getDepartment
      | .teacher _ _ _ => start ++ ", Subject: " ++ person.getSubject
      | .base _ _ => start
    say { s with detailsFile := s.detailsFile ++ [line] }
      ("Person details saved for: " ++ person.getName)

/-- Method `AttendanceSystem::logAttendance`; `opens` tells whether the attendance file
could be opened for append and `timestamp` is what `getCurrentTimestamp` returns. -/
def logAttendance (s : State) (person : Person) (opens : Bool) (timestamp : String) :
    State :=
  let filename := attendancePath ++ "attendance.txt"
  if !opens then
    say s ("Failed to open attendance log file: " ++ filename)
  else
    let start :=
      "Time: " ++ timestamp ++ ", ID: " ++ toString person.getId ++ ", Name: " ++
        person.getName
    let line :=
      match person with
      | .student _ _ _ => start ++ ", Department: " ++ person.getDepartment
      | .teacher _ _ _ => start ++ ", Subject: " ++ person.getSubject
      | .base _ _ => start
    say { s with attendanceFile := s.attendanceFile ++ [line] }
      ("Attendance logged for: " ++ person.getName)

/-- Method `AttendanceSystem::addPerson`. -/
def addPerson (s : State) (person : Person) (detailsOpens : Bool) : State :=
  let s1 := { s with people := s.people ++ [person] }
  let s2 := { s1 with idMap := assign s1.idMap person.getId person }
  savePersonDetails s2 person detailsOpens

/-- What the operator types into the registration form. -/
structure RegInput where
  id : Int
  name : String
  department : String
  subject : String
  role : Char

/-- The prompts of the registration form. -/
def formPrompts : List String :=
  ["Enter ID: ", "Enter Name: ", "Enter Department: ", "Enter Subject: ",
   "Is the person a Student (S) or Teacher (T)? "]

/-- Method `AttendanceSystem::registerNewPerson`; `detailsOpens` tells whether the details
file can be opened for append. -/
def registerNewPerson (s : State) (frame : Mat) (inp : RegInput) (detailsOpens : Bool) :
    State :=
  let s0 := sayAll s formPrompts
  if inp.role.toLower = 's' then
    let s1 := addPerson s0 (Person.student inp.name inp.id inp.department) detailsOpens
    let s2 := { s1 with faceDatabase := registerFace s1.faceDatabase inp.id frame }
    say s2 "New person registered and attendance marked."
  else if inp.role.toLower = 't' then
    let s1 := addPerson s0 (Person.teacher inp.name inp.id inp.subject) detailsOpens
    let s2 := { s1 with faceDatabase := registerFace s1.faceDatabase inp.id frame }
    say s2 "New person registered and attendance marked."
  else
    say s0 "Invalid role. Please enter 'S' for Student or 'T' for Teacher."

/-- One turn of the capture loop: the frame the camera delivers, and what the clock, the
file system and the operator would answer during that turn. -/
structure FrameEvent where
  frame : Mat
  timestamp : String
  ledgerOpens : Bool
  reg : RegInput
  detailsOpens : Bool
  key : Int

/-- The text `markAttendance` writes before it registers an unrecognised person. -/
def unknownPersonText : String := "Unknown person detected. Registering new person..."

/-- The body of the loop of `markAttendance` for a non-empty frame, up to `imshow`. -/
def markFrame (env : Env) (s : State) (ev : FrameEvent) : State :=
  let s1 := { s with currentFrame := ev.frame.clone }
  let grayFrame := env.cvtColor ev.frame
  match recognize env s1.faceDatabase grayFrame with
  | some id =>
    match find s1.idMap id with
    | some person =>
      let s2 := sayAll (say s1 "Marking attendance for:") person.display
      logAttendance s2 person ev.ledgerOpens ev.timestamp
    | none =>
      registerNewPerson (say s1 unknownPersonText) s1.currentFrame ev.reg ev.detailsOpens
  | none => s1

/-- The loop of `markAttendance`. It ends on an empty frame or when the key read is ESC
(27); once the events are used up the camera delivers an empty frame. -/
def markLoop (env : Env) : State → List FrameEvent → State
  | s, [] => say s "Error: Captured empty frame!"
  | s, ev :: rest =>
    if ev.frame.empty then
      say s "Error: Captured empty frame!"
    else
      let s1 := markFrame env s ev
      if ev.key = 27 then s1 else markLoop env s1 rest

/-- Method `AttendanceSystem::markAttendance`; `camOpens` tells whether the camera could
be opened. -/
def markAttendance (env : Env) (s : State) (camOpens : Bool) (events : List FrameEvent) :
    State :=
  if !camOpens then
    say s "Error: Could not open camera"
  else
    markLoop env s events

/-- Method `Time::displaytime`. -/
def displaytime (s : State) (timestamp : String) : State :=
  sayAll s ["--------------------------", "Timestamp: " ++ timestamp,
    "--------------------------"]

/-! ## Sequences of operations -/

/-- An operation on the system with everything it reads from outside. -/
inductive Op where
  | register (frame : Mat) (inp : RegInput) (detailsOpens : Bool)
  | mark (camOpens : Bool) (events : List FrameEvent)

/-- Perform one operation. -/
def step (env : Env) (s : State) : Op → State
  | .register frame inp detailsOpens => registerNewPerson s frame inp detailsOpens
  | .mark camOpens events => markAttendance env s camOpens events

/-- The state reached from the freshly constructed system by the operations `ops`. -/
def run (env : Env) (ops : List Op) : State := ops.foldl (step env) State.init

/-- One registration: the captured frame, the form input and whether the details file
can be opened. -/
structure Registration where
  frame : Mat
  inp : RegInput
  detailsOpens : Bool

/-- Perform the registrations `regs` one after the other. -/
def registerAll (s : State) (regs : List Registration) : State :=
  regs.foldl (fun st r => registerNewPerson st r.frame r.inp r.detailsOpens) s

/-! ## The main function -/

/-- The menu text. -/
def menuText : String :=
  "1. Mark Attendance\n2. Register New Person\n3. Exit\nChoose an option: "

/-- Local `modelPath` of `main`. -/
def modelPath : String := "C:/cascade/haarcascade_frontalface_default.xml"

/-- One turn of the menu: the option typed and what the outside world answers during the
operation chosen (`events` for option 1; `frame`, `timestamp`, `reg`, `detailsOpens` for
option 2). -/
structure MenuInput where
  choice : Int
  camOpens : Bool
  events : List FrameEvent
  frame : Mat
  timestamp : String
  reg : RegInput
  detailsOpens : Bool

/-- What a run of `main` leaves: the exit status (`none` while the process waits for an
option that never comes) and the final state. -/
structure MainResult where
  exitStatus : Option Int
  final : State

/-- The menu loop of `main`. Leaving the loop leads to `return 0`. -/
def menuLoop (env : Env) : State → List MenuInput → MainResult
  | s, [] => ⟨none, say s menuText⟩
  | s, inp :: rest =>
    let s0 := say s menuText
    if inp.choice = 1 then
      menuLoop env (markAttendance env s0 inp.camOpens inp.events) rest
    else if inp.choice = 2 then
      let s1 := say s0 "Registering new person..."
      if !inp.camOpens then
        menuLoop env (say s1 "Error: Could not open camera") rest
      else if !inp.frame.empty then
        let s2 := displaytime s1 inp.timestamp
        menuLoop env (registerNewPerson s2 inp.frame inp.reg inp.detailsOpens) rest
      else
        menuLoop env (say s1 "Error: No frame captured to register new person.") rest
    else if inp.choice = 3 then
      ⟨some 0, s0⟩
    else
      menuLoop env (say s0 "Invalid option. Try again.") rest

/-- Function `main`; `modelLoads` tells whether `faceCascade.load(modelPath)` succeeds.
When it fails the constructor of `SimpleFaceRecognizer` writes its message and throws, the
`catch` clause writes `e.what()`, and control reaches the `return 0` after the `try`. -/
def main (env : Env) (modelLoads : Bool) (inputs : List MenuInput) : MainResult :=
  if !modelLoads then
    let s1 := say State.init ("Failed to load face cascade model from path: " ++ modelPath)
    let s2 := say s1 ("Exception caught: " ++ "Failed to load face cascade model.")
    ⟨some 0, s2⟩
  else
    menuLoop env (say State.init "Attendance system initialized.") inputs

/-- The face store after the calls `registerFace id face` for the pairs of `calls`, in
that order, starting from an empty store. -/
def registerFaces (calls : List (Int × Mat)) : List (Int × Mat) :=
  calls.foldl (fun db c => registerFace db c.1 c.2) []

/-- The console after a failed start: the message of the constructor of
`SimpleFaceRecognizer` and the message of the `catch` clause of `main`. -/
def setupFailureTexts : List String :=
  ["Failed to load face cascade model from path: C:/cascade/haarcascade_frontalface_default.xml",
   "Exception caught: Failed to load face cascade model."]

/-! ## Sample data -/

/-- An image of `r` rows and `c` columns with the intensity `v` everywhere. -/
def flat (r c v : Nat) : Mat := ⟨r, c, fun _ _ => v⟩

/-- A detector reporting the whole frame as the only face, a `rectangle` that leaves the
frame as it is, and a map visited in the order `order` gives. -/
def wholeFrameEnv (order : List (Int × Mat) → List (Int × Mat))
    (h : ∀ l, (order l).Perm l) : Env where
  detectMultiScale := fun m => [⟨0, 0, m.cols, m.rows⟩]
  rectangle := fun m _ => m
  cvtColor := fun m => m
  bucketOrder := order
  bucketOrder_perm := h

/-- A library whose `unordered_map` is visited in insertion order. -/
def insertionEnv : Env := wholeFrameEnv (fun l => l) (fun l => List.Perm.refl l)

/-- A library whose `unordered_map` is visited newest key first, as the one of libstdc++
is for keys that fall into different buckets. -/
def newestFirstEnv : Env := wholeFrameEnv List.reverse (fun l => List.reverse_perm l)

/-- Sample form input for a student. -/
def sampleStudent : RegInput := ⟨7, "Ada", "Maths", "Logic", 'S'⟩

/-- Sample form input for a teacher. -/
def sampleTeacher : RegInput := ⟨8, "Bob", "Physics", "Optics", 't'⟩

/-- Sample form input with a role that is neither S nor T. -/
def sampleInvalid : RegInput := ⟨9, "Eve", "Arts", "Music", 'x'⟩

/-- Sample turn of the capture loop showing the image `m`. -/
def sampleEvent (m : Mat) (ledgerOpens : Bool) : FrameEvent :=
  ⟨m, "2024-01-01 09:00:00", ledgerOpens, sampleInvalid, true, 27⟩

/-- Sample turn of the menu: the operator types 3. -/
def sampleExit : MenuInput :=
  ⟨3, true, [], Mat.default, "2024-01-01 09:00:00", sampleInvalid, true⟩

/-! ## Properties of the matcher -/

theorem norm_lt_iff_sq (a b : Mat) : norm a b < 1000 ↔ normSq a b < 1000000 := by
  unfold norm
  rw [Nat.sqrt_lt']

theorem normSq_lt_iff_real (n : Nat) : n < 1000000 ↔ Real.sqrt (n : ℝ) < 1000 := by
  rw [Real.sqrt_lt' (by norm_num)]
  constructor
  · intro h
    have h1 : (n : ℝ) < ((1000000 : ℕ) : ℝ) := by exact_mod_cast h
    norm_num at h1 ⊢
    exact h1
  · intro h
    have h2 : (n : ℝ) < ((1000000 : ℕ) : ℝ) := by
      norm_num at h ⊢
      exact h
    exact_mod_cast h2

theorem norm_lt_iff_real (a b : Mat) :
    norm a b < 1000 ↔ Real.sqrt (normSq a b : ℝ) < 1000 := by
  rw [norm_lt_iff_sq, normSq_lt_iff_real]

theorem compareFaces_iff (a b : Mat) :
    compareFaces a b = true ↔ a.size = b.size ∧ norm a b < 1000 := by
  unfold compareFaces
  by_cases h : a.size = b.size
  · simp [h]
  · simp [h]

theorem compareFaces_size_ne (a b : Mat) (h : a.size ≠ b.size) :
    compareFaces a b = false := by
  unfold compareFaces
  simp [h]

theorem scanDatabase_some (face : Mat) (l : List (Int × Mat)) (id : Int)
    (h : scanDatabase face l = some id) :
    ∃ ref, (id, ref) ∈ l ∧ compareFaces ref face = true := by
  induction l with
  | nil => simp [scanDatabase] at h
  | cons e rest ih =>
    unfold scanDatabase at h
    by_cases hc : compareFaces e.2 face = true
    · simp [hc] at h
      exact ⟨e.2, by simp [← h], hc⟩
    · simp [hc] at h
      obtain ⟨ref, hm, hr⟩ := ih h
      exact ⟨ref, List.mem_cons_of_mem _ hm, hr⟩

theorem scanDatabase_none_iff (face : Mat) (l : List (Int × Mat)) :
    scanDatabase face l = none ↔ ∀ e ∈ l, compareFaces e.2 face = false := by
  induction l with
  | nil => simp [scanDatabase]
  | cons e rest ih =>
    unfold scanDatabase
    by_cases hc : compareFaces e.2 face = true
    · simp [hc]
    · simp [hc, ih]

theorem scanDatabase_first (face : Mat) (l : List (Int × Mat)) (id : Int) :
    scanDatabase face l = some id ↔
      ∃ before ref after, l = before ++ (id, ref) :: after ∧
        compareFaces ref face = true ∧ ∀ e ∈ before, compareFaces e.2 face = false := by
  induction l with
  | nil => simp [scanDatabase]
  | cons e rest ih =>
    unfold scanDatabase
    by_cases hc : compareFaces e.2 face = true
    · simp only [hc, if_true, Option.some.injEq]
      constructor
      · intro h
        exact ⟨[], e.2, rest, by simp [← h], hc, by simp⟩
      · rintro ⟨before, ref, after, hl, _, hb⟩
        cases before with
        | nil =>
          simp at hl
          rw [hl.1]
        | cons b bs =>
          simp at hl
          have := hb b (by simp)
          rw [← hl.1, hc] at this
          cases this
    · simp only [hc, Bool.false_eq_true, if_false]
      rw [ih]
      constructor
      · rintro ⟨before, ref, after, hl, hr, hb⟩
        refine ⟨e :: before, ref, after, by simp [hl], hr, ?_⟩
        intro x hx
        rcases List.mem_cons.mp hx with rfl | hx
        · simpa using hc
        · exact hb x hx
      · rintro ⟨before, ref, after, hl, hr, hb⟩
        cases before with
        | nil =>
          simp at hl
          rw [hl.1] at hc
          exact absurd hr hc
        | cons b bs =>
          simp at hl
          exact ⟨bs, ref, after, hl.2, hr, fun x hx => hb x (List.mem_cons_of_mem _ hx)⟩

theorem recognize_of_detect (env : Env) (db : List (Int × Mat)) (frame : Mat)
    (first : Rect) (others : List Rect)
    (hdet : env.detectMultiScale frame = first :: others) :
    recognize env db frame =
      scanDatabase (faceRegion env frame (first :: others) first) (env.bucketOrder db) := by
  unfold recognize
  rw [hdet]

theorem recognize_no_face (env : Env) (db : List (Int × Mat)) (frame : Mat)
    (hdet : env.detectMultiScale frame = []) : recognize env db frame = none := by
  unfold recognize
  rw [hdet]

theorem recognize_some_mem (env : Env) (db : List (Int × Mat)) (frame : Mat) (id : Int)
    (h : recognize env db frame = some id) : ∃ ref, (id, ref) ∈ db := by
  unfold recognize at h
  split at h
  · cases h
  · obtain ⟨ref, hm, _⟩ := scanDatabase_some _ _ _ h
    exact ⟨ref, (env.bucketOrder_perm db).mem_iff.mp hm⟩

/-- Claim C1. For a stored reference and a candidate of equal dimensions, `compareFaces`
declares a match exactly when the L2 norm of their difference (the real square root of the
sum of squared per-pixel differences) is strictly below 1000, that is exactly when the sum
of squared differences is below 1,000,000; a candidate whose norm is above 1000 is
reported as no match. -/
theorem compareFaces_threshold (ref cand : Mat) (hsize : ref.size = cand.size) :
    (compareFaces ref cand = true ↔ Real.sqrt (normSq ref cand : ℝ) < 1000) ∧
    (compareFaces ref cand = true ↔ normSq ref cand < 1000000) ∧
    (1000 < Real.sqrt (normSq ref cand : ℝ) → compareFaces ref cand = false) := by
  have h1 : compareFaces ref cand = true ↔ normSq ref cand < 1000000 := by
    rw [compareFaces_iff, norm_lt_iff_sq]
    simp [hsize]
  refine ⟨?_, h1, ?_⟩
  · rw [h1, normSq_lt_iff_real]
  · intro h
    cases hc : compareFaces ref cand
    · rfl
    · rw [h1, normSq_lt_iff_real] at hc
      exact absurd hc (not_lt.mpr (le_of_lt h))

/-- Witness of `compareFaces_threshold`: a 40 by 40 image of intensity 0 against one of
intensity 30. -/
theorem compareFaces_threshold_witness :
    (flat 40 40 0).size = (flat 40 40 30).size ∧
    ((compareFaces (flat 40 40 0) (flat 40 40 30) = true ↔
        Real.sqrt (normSq (flat 40 40 0) (flat 40 40 30) : ℝ) < 1000) ∧
      (compareFaces (flat 40 40 0) (flat 40 40 30) = true ↔
        normSq (flat 40 40 0) (flat 40 40 30) < 1000000) ∧
      (1000 < Real.sqrt (normSq (flat 40 40 0) (flat 40 40 30) : ℝ) →
        compareFaces (flat 40 40 0) (flat 40 40 30) = false)) :=
  ⟨rfl, compareFaces_threshold (flat 40 40 0) (flat 40 40 30) rfl⟩

/-- Claim C2. If every stored reference has dimensions different from those of the
candidate region, `recognize` returns no match, whatever the pixels are; and
`compareFaces a b` is false for every pair of images with differing dimensions. -/
theorem recognize_size_mismatch (env : Env) (db : List (Int × Mat)) (frame : Mat)
    (hdims : ∀ first others, env.detectMultiScale frame = first :: others →
      ∀ e ∈ db, e.2.size ≠ (faceRegion env frame (first :: others) first).size) :
    recognize env db frame = none ∧
    ∀ a b : Mat, a.size ≠ b.size → compareFaces a b = false := by
  refine ⟨?_, compareFaces_size_ne⟩
  cases hdet : env.detectMultiScale frame with
  | nil => exact recognize_no_face env db frame hdet
  | cons first others =>
    rw [recognize_of_detect env db frame first others hdet, scanDatabase_none_iff]
    intro e he
    exact compareFaces_size_ne _ _
      (hdims first others hdet e ((env.bucketOrder_perm db).mem_iff.mp he))

/-- Witness of `recognize_size_mismatch`: a 2 by 2 reference and a 3 by 3 candidate of the
same intensity. -/
theorem recognize_size_mismatch_witness :
    recognize insertionEnv [(1, flat 2 2 5)] (flat 3 3 5) = none ∧
    ∀ a b : Mat, a.size ≠ b.size → compareFaces a b = false :=
  recognize_size_mismatch insertionEnv [(1, flat 2 2 5)] (flat 3 3 5) (by
    intro first others hdet e he
    simp [insertionEnv, wholeFrameEnv, flat] at hdet
    simp at he
    subst he
    rw [← hdet.1]
    simp [faceRegion, Mat.roi, Mat.size, flat])

theorem keys_assign {α : Type} (m : List (Int × α)) (k : Int) (v : α) :
    keys (assign m k v) = if k ∈ keys m then keys m else keys m ++ [k] := by
  induction m with
  | nil => simp [assign, keys]
  | cons e rest ih =>
    unfold assign
    by_cases h : e.1 = k
    · simp [h, keys]
    · have h2 : ¬ k = e.1 := fun h3 => h h3.symm
      simp only [h, if_false]
      simp only [keys, List.map_cons, List.mem_cons, h2, false_or] at ih ⊢
      rw [ih]
      split <;> simp

/-- Counterexample to claim C4 as stated. ID 1 is registered before ID 2 with the same
image and that image is shown to the camera: the earliest-inserted matching reference is
that of ID 1, and with a map visited newest key first `recognize` reports ID 2. -/
theorem recognize_not_insertion_order :
    registerFaces [(1, flat 2 2 5), (2, flat 2 2 5)] = [(1, flat 2 2 5), (2, flat 2 2 5)] ∧
    scanDatabase (faceRegion newestFirstEnv (flat 2 2 5) [⟨0, 0, 2, 2⟩] ⟨0, 0, 2, 2⟩)
      (registerFaces [(1, flat 2 2 5), (2, flat 2 2 5)]) = some 1 ∧
    recognize newestFirstEnv (registerFaces [(1, flat 2 2 5), (2, flat 2 2 5)])
      (flat 2 2 5) = some 2 := by
  refine ⟨rfl, ?_, ?_⟩ <;> decide

/-- Claim C4, amended. `recognize` compares the candidate with the stored references in
the order in which the `unordered_map` is visited, and the ID it returns is that of the
first reference in that order that satisfies the match test, even when other references
also satisfy it; the ID returned is that of a stored reference satisfying the test, no
match is returned only when no stored reference satisfies it, and where the map is
visited in insertion order the ID is that of the earliest-inserted satisfying
reference. -/
theorem recognize_first_in_visit_order (env : Env) (calls : List (Int × Mat))
    (frame : Mat) (first : Rect) (others : List Rect)
    (hdet : env.detectMultiScale frame = first :: others) :
    (∀ id, recognize env (registerFaces calls) frame = some id ↔
      ∃ before ref after,
        env.bucketOrder (registerFaces calls) = before ++ (id, ref) :: after ∧
        compareFaces ref (faceRegion env frame (first :: others) first) = true ∧
        ∀ e ∈ before,
          compareFaces e.2 (faceRegion env frame (first :: others) first) = false) ∧
    (∀ id, recognize env (registerFaces calls) frame = some id →
      ∃ ref, (id, ref) ∈ registerFaces calls ∧
        compareFaces ref (faceRegion env frame (first :: others) first) = true) ∧
    (recognize env (registerFaces calls) frame = none ↔
      ∀ e ∈ registerFaces calls,
        compareFaces e.2 (faceRegion env frame (first :: others) first) = false) ∧
    (env.bucketOrder (registerFaces calls) = registerFaces calls →
      recognize env (registerFaces calls) frame =
        scanDatabase (faceRegion env frame (first :: others) first)
          (registerFaces calls)) := by
  rw [recognize_of_detect env _ frame first others hdet]
  refine ⟨fun id => scanDatabase_first _ _ id, ?_, ?_, ?_⟩
  · intro id h
    obtain ⟨ref, hm, hc⟩ := scanDatabase_some _ _ _ h
    exact ⟨ref, (env.bucketOrder_perm _).mem_iff.mp hm, hc⟩
  · rw [scanDatabase_none_iff]
    constructor
    · intro h e he
      exact h e ((env.bucketOrder_perm _).mem_iff.mpr he)
    · intro h e he
      exact h e ((env.bucketOrder_perm _).mem_iff.mp he)
  · intro h
    rw [h]

/-- Witness of `recognize_first_in_visit_order`: IDs 1 and 2 registered with the same
image, in a map visited newest key first. -/
theorem recognize_first_in_visit_order_witness :
    recognize newestFirstEnv (registerFaces [(1, flat 2 2 5), (2, flat 2 2 5)])
      (flat 2 2 5) = some 2 ↔
    ∃ before ref after,
      newestFirstEnv.bucketOrder (registerFaces [(1, flat 2 2 5), (2, flat 2 2 5)]) =
        before ++ (2, ref) :: after ∧
      compareFaces ref
        (faceRegion newestFirstEnv (flat 2 2 5) [⟨0, 0, 2, 2⟩] ⟨0, 0, 2, 2⟩) = true ∧
      ∀ e ∈ before, compareFaces e.2
        (faceRegion newestFirstEnv (flat 2 2 5) [⟨0, 0, 2, 2⟩] ⟨0, 0, 2, 2⟩) = false :=
  (recognize_first_in_visit_order newestFirstEnv [(1, flat 2 2 5), (2, flat 2 2 5)]
    (flat 2 2 5) ⟨0, 0, 2, 2⟩ [] rfl).1 2

/-! ## Registration -/

theorem ofNat_toNat_eq (c : Char) (n : Nat) (h : c.toNat = n) : c = Char.ofNat n := by
  subst h
  simp

theorem toLower_eq_iff (c : Char) :
    (c.toLower = 's' ↔ (c = 'S' ∨ c = 's')) ∧ (c.toLower = 't' ↔ (c = 'T' ∨ c = 't')) := by
  by_cases hr : c.toNat ≥ 65 ∧ c.toNat ≤ 90
  · obtain ⟨n, hn⟩ : ∃ n, c.toNat = n := ⟨_, rfl⟩
    have hc := ofNat_toNat_eq c n hn
    rw [hn] at hr
    obtain ⟨h1, h2⟩ := hr
    subst hc
    clear hn
    interval_cases n <;> decide
  · have h : c.toLower = c := by
      unfold Char.toLower
      simp only [hr, if_false]
    rw [h]
    constructor
    · constructor
      · intro h; exact Or.inr h
      · rintro (rfl | rfl)
        · exact absurd (by decide) hr
        · rfl
    · constructor
      · intro h; exact Or.inr h
      · rintro (rfl | rfl)
        · exact absurd (by decide) hr
        · rfl

theorem registerNewPerson_student (s : State) (frame : Mat) (inp : RegInput)
    (opens : Bool) (h : inp.role.toLower = 's') :
    registerNewPerson s frame inp opens =
      say { addPerson (sayAll s formPrompts)
              (Person.student inp.name inp.id inp.department) opens with
            faceDatabase :=
              registerFace (addPerson (sayAll s formPrompts)
                (Person.student inp.name inp.id inp.department) opens).faceDatabase
                inp.id frame }
        "New person registered and attendance marked." := by
  unfold registerNewPerson
  simp only [h, if_true]

theorem registerNewPerson_teacher (s : State) (frame : Mat) (inp : RegInput)
    (opens : Bool) (h : inp.role.toLower = 't') :
    registerNewPerson s frame inp opens =
      say { addPerson (sayAll s formPrompts)
              (Person.teacher inp.name inp.id inp.subject) opens with
            faceDatabase :=
              registerFace (addPerson (sayAll s formPrompts)
                (Person.teacher inp.name inp.id inp.subject) opens).faceDatabase
                inp.id frame }
        "New person registered and attendance marked." := by
  have h2 : ¬ ('t' : Char) = 's' := by decide
  unfold registerNewPerson
  simp only [h, h2, if_true, if_false]

theorem registerNewPerson_invalid (s : State) (frame : Mat) (inp : RegInput)
    (opens : Bool) (hs : ¬ inp.role.toLower = 's') (ht : ¬ inp.role.toLower = 't') :
    registerNewPerson s frame inp opens =
      say (sayAll s formPrompts)
        "Invalid role. Please enter 'S' for Student or 'T' for Teacher." := by
  unfold registerNewPerson
  simp only [hs, ht, if_false]

theorem savePersonDetails_fields (s : State) (p : Person) (opens : Bool) :
    (savePersonDetails s p opens).people = s.people ∧
    (savePersonDetails s p opens).idMap = s.idMap ∧
    (savePersonDetails s p opens).faceDatabase = s.faceDatabase ∧
    (savePersonDetails s p opens).attendanceFile = s.attendanceFile := by
  unfold savePersonDetails
  cases opens <;> simp [say]

theorem addPerson_fields (s : State) (p : Person) (opens : Bool) :
    (addPerson s p opens).people = s.people ++ [p] ∧
    (addPerson s p opens).idMap = assign s.idMap p.getId p ∧
    (addPerson s p opens).faceDatabase = s.faceDatabase ∧
    (addPerson s p opens).attendanceFile = s.attendanceFile := by
  unfold addPerson
  obtain ⟨h1, h2, h3, h4⟩ := savePersonDetails_fields
    { s with people := s.people ++ [p], idMap := assign s.idMap p.getId p } p opens
  exact ⟨h1, h2, h3, h4⟩

theorem addPerson_details_open (s : State) (p : Person) :
    (addPerson s p true).detailsFile = s.detailsFile ++
      [match p with
        | .student name id department =>
          "ID: " ++ toString id ++ ", Name: " ++ name ++ ", Department: " ++ department
        | .teacher name id subject =>
          "ID: " ++ toString id ++ ", Name: " ++ name ++ ", Subject: " ++ subject
        | .base name id => "ID: " ++ toString id ++ ", Name: " ++ name] := by
  cases p <;> simp [addPerson, savePersonDetails, say, Person.getId, Person.getName,
    Person.getDepartment, Person.getSubject]

theorem addPerson_details_closed (s : State) (p : Person) :
    (addPerson s p false).detailsFile = s.detailsFile := by
  simp [addPerson, savePersonDetails, say]

/-- Counterexample to claim C5 as stated. With role `S` and a details file that cannot
be opened for append, `registerNewPerson` appends no record to the details log, although
it registers the person in memory. -/
theorem registerNewPerson_student_no_record :
    sampleStudent.role = 'S' ∧
    (registerNewPerson State.init (flat 2 2 5) sampleStudent false).detailsFile =
      State.init.detailsFile ∧
    keys (registerNewPerson State.init (flat 2 2 5) sampleStudent false).idMap = [7] := by
  refine ⟨rfl, ?_, ?_⟩ <;> decide

/-- Claim C5, amended. When the details file can be opened for append: with role `S` or
`s`, `registerNewPerson` appends to the details log exactly one record, made of the ID,
the name and a Department field holding the entered department (no Subject field); with
role `T` or `t` it appends exactly one record with a Subject field holding the entered
subject (no Department field). When the file cannot be opened nothing is appended. For
every other role character, whether the file can be opened or not, nothing is appended
and the person list, the ID map and the face store are left exactly as they were. -/
theorem registerNewPerson_roles (s : State) (frame : Mat) (inp : RegInput) :
    ((inp.role = 'S' ∨ inp.role = 's') →
      (registerNewPerson s frame inp true).detailsFile = s.detailsFile ++
        ["ID: " ++ toString inp.id ++ ", Name: " ++ inp.name ++ ", Department: " ++
          inp.department]) ∧
    ((inp.role = 'T' ∨ inp.role = 't') →
      (registerNewPerson s frame inp true).detailsFile = s.detailsFile ++
        ["ID: " ++ toString inp.id ++ ", Name: " ++ inp.name ++ ", Subject: " ++
          inp.subject]) ∧
    (registerNewPerson s frame inp false).detailsFile = s.detailsFile ∧
    ((inp.role ≠ 'S' ∧ inp.role ≠ 's' ∧ inp.role ≠ 'T' ∧ inp.role ≠ 't') →
      ∀ opens,
        (registerNewPerson s frame inp opens).detailsFile = s.detailsFile ∧
        (registerNewPerson s frame inp opens).people = s.people ∧
        (registerNewPerson s frame inp opens).idMap = s.idMap ∧
        (registerNewPerson s frame inp opens).faceDatabase = s.faceDatabase) := by
  refine ⟨?_, ?_, ?_, ?_⟩
  · intro h
    rw [registerNewPerson_student s frame inp true ((toLower_eq_iff inp.role).1.mpr h)]
    simp only [say]
    rw [addPerson_details_open]
    rfl
  · intro h
    rw [registerNewPerson_teacher s frame inp true ((toLower_eq_iff inp.role).2.mpr h)]
    simp only [say]
    rw [addPerson_details_open]
    rfl
  · by_cases hs : inp.role.toLower = 's'
    · rw [registerNewPerson_student s frame inp false hs]
      simp only [say]
      rw [addPerson_details_closed]
      rfl
    · by_cases ht : inp.role.toLower = 't'
      · rw [registerNewPerson_teacher s frame inp false ht]
        simp only [say]
        rw [addPerson_details_closed]
        rfl
      · rw [registerNewPerson_invalid s frame inp false hs ht]
        rfl
  · rintro ⟨h1, h2, h3, h4⟩ opens
    have hs : ¬ inp.role.toLower = 's' := by
      rw [(toLower_eq_iff inp.role).1]
      rintro (h | h)
      · exact h1 h
      · exact h2 h
    have ht : ¬ inp.role.toLower = 't' := by
      rw [(toLower_eq_iff inp.role).2]
      rintro (h | h)
      · exact h3 h
      · exact h4 h
    rw [registerNewPerson_invalid s frame inp opens hs ht]
    exact ⟨rfl, rfl, rfl, rfl⟩

/-- Witness of `registerNewPerson_roles`: a student registered on the fresh system with a
details file that opens. -/
theorem registerNewPerson_roles_witness :
    (registerNewPerson State.init (flat 2 2 5) sampleStudent true).detailsFile =
      State.init.detailsFile ++
        ["ID: " ++ toString sampleStudent.id ++ ", Name: " ++ sampleStudent.name ++
          ", Department: " ++ sampleStudent.department] :=
  (registerNewPerson_roles State.init (flat 2 2 5) sampleStudent).1 (Or.inl rfl)

/-! ## Registry and face store -/

theorem keys_length {α : Type} (m : List (Int × α)) : (keys m).length = m.length := by
  simp [keys]

theorem find_isSome_iff {α : Type} (m : List (Int × α)) (k : Int) :
    (find m k).isSome = true ↔ k ∈ keys m := by
  induction m with
  | nil => simp [find, keys]
  | cons e rest ih =>
    unfold find
    by_cases h : e.1 = k
    · simp [h, keys]
    · have h2 : ¬ k = e.1 := fun h3 => h h3.symm
      simp only [h, if_false, ih]
      simp [keys, h2]

theorem find_of_mem_keys {α : Type} (m : List (Int × α)) (k : Int) (h : k ∈ keys m) :
    ∃ v, find m k = some v := by
  have h1 := (find_isSome_iff m k).mpr h
  cases hf : find m k with
  | none => simp [hf] at h1
  | some v => exact ⟨v, rfl⟩

theorem mem_keys_of_mem {α : Type} (m : List (Int × α)) (k : Int) (v : α)
    (h : (k, v) ∈ m) : k ∈ keys m := by
  unfold keys
  exact List.mem_map.mpr ⟨(k, v), h, rfl⟩

theorem valid_role_cases (c : Char) (h : c = 'S' ∨ c = 's' ∨ c = 'T' ∨ c = 't') :
    c.toLower = 's' ∨ c.toLower = 't' := by
  rcases h with h | h | h | h
  · exact Or.inl ((toLower_eq_iff c).1.mpr (Or.inl h))
  · exact Or.inl ((toLower_eq_iff c).1.mpr (Or.inr h))
  · exact Or.inr ((toLower_eq_iff c).2.mpr (Or.inl h))
  · exact Or.inr ((toLower_eq_iff c).2.mpr (Or.inr h))

theorem registerNewPerson_valid (s : State) (frame : Mat) (inp : RegInput) (opens : Bool)
    (h : inp.role.toLower = 's' ∨ inp.role.toLower = 't') :
    ∃ p : Person, p.getId = inp.id ∧
      (registerNewPerson s frame inp opens).people = s.people ++ [p] ∧
      (registerNewPerson s frame inp opens).idMap = assign s.idMap inp.id p ∧
      (registerNewPerson s frame inp opens).faceDatabase =
        assign s.faceDatabase inp.id frame := by
  rcases h with h | h
  · refine ⟨Person.student inp.name inp.id inp.department, rfl, ?_⟩
    rw [registerNewPerson_student s frame inp opens h]
    obtain ⟨h1, h2, h3, _⟩ := addPerson_fields (sayAll s formPrompts)
      (Person.student inp.name inp.id inp.department) opens
    simp only [say, h1, h2, h3]
    exact ⟨rfl, rfl, rfl⟩
  · refine ⟨Person.teacher inp.name inp.id inp.subject, rfl, ?_⟩
    rw [registerNewPerson_teacher s frame inp opens h]
    obtain ⟨h1, h2, h3, _⟩ := addPerson_fields (sayAll s formPrompts)
      (Person.teacher inp.name inp.id inp.subject) opens
    simp only [say, h1, h2, h3]
    exact ⟨rfl, rfl, rfl⟩

theorem registerNewPerson_keys (s : State) (frame : Mat) (inp : RegInput) (opens : Bool)
    (hk : keys s.faceDatabase = keys s.idMap) :
    keys (registerNewPerson s frame inp opens).faceDatabase =
      keys (registerNewPerson s frame inp opens).idMap := by
  by_cases h : inp.role.toLower = 's' ∨ inp.role.toLower = 't'
  · obtain ⟨p, _, _, h2, h3⟩ := registerNewPerson_valid s frame inp opens h
    rw [h2, h3, keys_assign, keys_assign, hk]
  · have hs : ¬ inp.role.toLower = 's' := fun h1 => h (Or.inl h1)
    have ht : ¬ inp.role.toLower = 't' := fun h1 => h (Or.inr h1)
    rw [registerNewPerson_invalid s frame inp opens hs ht]
    exact hk

theorem logAttendance_fields (s : State) (p : Person) (opens : Bool) (ts : String) :
    (logAttendance s p opens ts).people = s.people ∧
    (logAttendance s p opens ts).idMap = s.idMap ∧
    (logAttendance s p opens ts).faceDatabase = s.faceDatabase ∧
    (logAttendance s p opens ts).detailsFile = s.detailsFile := by
  unfold logAttendance
  cases opens <;> simp [say]

theorem recognize_known (env : Env) (s : State) (frame : Mat) (id : Int)
    (hk : keys s.faceDatabase = keys s.idMap)
    (h : recognize env s.faceDatabase frame = some id) :
    ∃ person, find s.idMap id = some person := by
  obtain ⟨ref, hm⟩ := recognize_some_mem env s.faceDatabase frame id h
  apply find_of_mem_keys
  rw [← hk]
  exact mem_keys_of_mem _ _ _ hm

theorem markFrame_of_known (env : Env) (s : State) (ev : FrameEvent) (id : Int)
    (person : Person)
    (hrec : recognize env s.faceDatabase (env.cvtColor ev.frame) = some id)
    (hfind : find s.idMap id = some person) :
    markFrame env s ev =
      logAttendance
        (sayAll (say { s with currentFrame := ev.frame.clone } "Marking attendance for:")
          person.display)
        person ev.ledgerOpens ev.timestamp := by
  unfold markFrame
  simp only [hrec, hfind]

theorem markFrame_of_none (env : Env) (s : State) (ev : FrameEvent)
    (hrec : recognize env s.faceDatabase (env.cvtColor ev.frame) = none) :
    markFrame env s ev = { s with currentFrame := ev.frame.clone } := by
  unfold markFrame
  simp only [hrec]

theorem markFrame_registry (env : Env) (s : State) (ev : FrameEvent)
    (hk : keys s.faceDatabase = keys s.idMap) :
    (markFrame env s ev).people = s.people ∧
    (markFrame env s ev).idMap = s.idMap ∧
    (markFrame env s ev).faceDatabase = s.faceDatabase ∧
    (markFrame env s ev).detailsFile = s.detailsFile := by
  cases hrec : recognize env s.faceDatabase (env.cvtColor ev.frame) with
  | none =>
    rw [markFrame_of_none env s ev hrec]
    exact ⟨rfl, rfl, rfl, rfl⟩
  | some id =>
    obtain ⟨person, hfind⟩ := recognize_known env s _ id hk hrec
    rw [markFrame_of_known env s ev id person hrec hfind]
    obtain ⟨h1, h2, h3, h4⟩ := logAttendance_fields
      (sayAll (say { s with currentFrame := ev.frame.clone } "Marking attendance for:")
        person.display) person ev.ledgerOpens ev.timestamp
    rw [h1, h2, h3, h4]
    exact ⟨rfl, rfl, rfl, rfl⟩

theorem markLoop_registry (env : Env) (events : List FrameEvent) (s : State)
    (hk : keys s.faceDatabase = keys s.idMap) :
    (markLoop env s events).people = s.people ∧
    (markLoop env s events).idMap = s.idMap ∧
    (markLoop env s events).faceDatabase = s.faceDatabase ∧
    (markLoop env s events).detailsFile = s.detailsFile := by
  induction events generalizing s with
  | nil => exact ⟨rfl, rfl, rfl, rfl⟩
  | cons ev rest ih =>
    unfold markLoop
    by_cases he : ev.frame.empty = true
    · simp only [he, if_true]
      exact ⟨rfl, rfl, rfl, rfl⟩
    · simp only [he, Bool.false_eq_true, if_false]
      obtain ⟨h1, h2, h3, h4⟩ := markFrame_registry env s ev hk
      by_cases hkey : ev.key = 27
      · simp only [hkey, if_true]
        exact ⟨h1, h2, h3, h4⟩
      · simp only [hkey, if_false]
        have hk2 : keys (markFrame env s ev).faceDatabase = keys (markFrame env s ev).idMap := by
          rw [h2, h3]
          exact hk
        obtain ⟨g1, g2, g3, g4⟩ := ih (markFrame env s ev) hk2
        exact ⟨g1.trans h1, g2.trans h2, g3.trans h3, g4.trans h4⟩

theorem markAttendance_registry (env : Env) (s : State) (camOpens : Bool)
    (events : List FrameEvent) (hk : keys s.faceDatabase = keys s.idMap) :
    (markAttendance env s camOpens events).people = s.people ∧
    (markAttendance env s camOpens events).idMap = s.idMap ∧
    (markAttendance env s camOpens events).faceDatabase = s.faceDatabase ∧
    (markAttendance env s camOpens events).detailsFile = s.detailsFile := by
  unfold markAttendance
  cases camOpens
  · exact ⟨rfl, rfl, rfl, rfl⟩
  · exact markLoop_registry env events s hk

theorem step_keys (env : Env) (s : State) (op : Op)
    (hk : keys s.faceDatabase = keys s.idMap) :
    keys (step env s op).faceDatabase = keys (step env s op).idMap := by
  cases op with
  | register frame inp opens => exact registerNewPerson_keys s frame inp opens hk
  | mark camOpens events =>
    obtain ⟨_, h2, h3, _⟩ := markAttendance_registry env s camOpens events hk
    simp only [step]
    rw [h2, h3]
    exact hk

theorem foldl_step_keys (env : Env) (ops : List Op) (s : State)
    (hk : keys s.faceDatabase = keys s.idMap) :
    keys (ops.foldl (step env) s).faceDatabase = keys (ops.foldl (step env) s).idMap := by
  induction ops generalizing s with
  | nil => exact hk
  | cons op rest ih => exact ih (step env s op) (step_keys env s op hk)

theorem run_keys (env : Env) (ops : List Op) :
    keys (run env ops).faceDatabase = keys (run env ops).idMap :=
  foldl_step_keys env ops State.init rfl

/-- Claim C6. In every state reached from the freshly constructed system by a sequence of
`registerNewPerson` and `markAttendance` operations with arbitrary inputs, the IDs that
have a reference image in the face store are exactly the IDs that have a `Person` in the
ID map: the two key lists are equal, and a lookup succeeds in one exactly when it
succeeds in the other. -/
theorem face_store_matches_registry (env : Env) (ops : List Op) :
    keys (run env ops).faceDatabase = keys (run env ops).idMap ∧
    ∀ k : Int, (find (run env ops).faceDatabase k).isSome = true ↔
      (find (run env ops).idMap k).isSome = true := by
  refine ⟨run_keys env ops, ?_⟩
  intro k
  rw [find_isSome_iff, find_isSome_iff, run_keys]

/-! ## Counting registrations -/

theorem registerAll_counts (regs : List Registration) (s : State)
    (hvalid : ∀ r ∈ regs, r.inp.role = 'S' ∨ r.inp.role = 's' ∨ r.inp.role = 'T' ∨
      r.inp.role = 't')
    (hdistinct : (regs.map fun r => r.inp.id).Nodup)
    (hfresh : ∀ r ∈ regs, r.inp.id ∉ keys s.idMap)
    (hk : keys s.faceDatabase = keys s.idMap) :
    (registerAll s regs).people.map Person.getId =
      s.people.map Person.getId ++ regs.map (fun r => r.inp.id) ∧
    keys (registerAll s regs).idMap = keys s.idMap ++ regs.map (fun r => r.inp.id) ∧
    keys (registerAll s regs).faceDatabase =
      keys s.faceDatabase ++ regs.map (fun r => r.inp.id) := by
  induction regs generalizing s with
  | nil => simp [registerAll]
  | cons r rest ih =>
    have hr := valid_role_cases r.inp.role (hvalid r (by simp))
    obtain ⟨p, hp, h1, h2, h3⟩ := registerNewPerson_valid s r.frame r.inp r.detailsOpens hr
    have hnew : r.inp.id ∉ keys s.idMap := hfresh r (by simp)
    have hnew2 : r.inp.id ∉ keys s.faceDatabase := by
      rw [hk]
      exact hnew
    have hki : keys (registerNewPerson s r.frame r.inp r.detailsOpens).idMap =
        keys s.idMap ++ [r.inp.id] := by
      rw [h2, keys_assign, if_neg hnew]
    have hkf : keys (registerNewPerson s r.frame r.inp r.detailsOpens).faceDatabase =
        keys s.faceDatabase ++ [r.inp.id] := by
      rw [h3, keys_assign, if_neg hnew2]
    rw [List.map_cons, List.nodup_cons] at hdistinct
    have hfresh2 : ∀ q ∈ rest,
        q.inp.id ∉ keys (registerNewPerson s r.frame r.inp r.detailsOpens).idMap := by
      intro q hq
      rw [hki, List.mem_append, not_or]
      refine ⟨hfresh q (List.mem_cons_of_mem _ hq), ?_⟩
      intro hmem
      rw [List.mem_singleton] at hmem
      apply hdistinct.1
      rw [← hmem]
      exact List.mem_map.mpr ⟨q, hq, rfl⟩
    obtain ⟨g1, g2, g3⟩ := ih (registerNewPerson s r.frame r.inp r.detailsOpens)
      (fun q hq => hvalid q (List.mem_cons_of_mem _ hq)) hdistinct.2 hfresh2
      (by rw [hki, hkf, hk])
    have hunfold : registerAll s (r :: rest) =
        registerAll (registerNewPerson s r.frame r.inp r.detailsOpens) rest := rfl
    rw [hunfold, g1, g2, g3, h1, hki, hkf]
    simp [hp]

/-- Claim C7. After N successful registrations (role S or T, in either case) with pairwise
distinct IDs on the freshly constructed system, the person list and the ID map have
exactly N elements, one per registered ID, and the face store holds exactly N reference
images, one per registered ID. -/
theorem registrations_count (regs : List Registration)
    (hvalid : ∀ r ∈ regs, r.inp.role = 'S' ∨ r.inp.role = 's' ∨ r.inp.role = 'T' ∨
      r.inp.role = 't')
    (hdistinct : (regs.map fun r => r.inp.id).Nodup) :
    (registerAll State.init regs).people.length = regs.length ∧
    (registerAll State.init regs).idMap.length = regs.length ∧
    (registerAll State.init regs).faceDatabase.length = regs.length ∧
    (registerAll State.init regs).people.map Person.getId = regs.map (fun r => r.inp.id) ∧
    keys (registerAll State.init regs).idMap = regs.map (fun r => r.inp.id) ∧
    keys (registerAll State.init regs).faceDatabase = regs.map (fun r => r.inp.id) := by
  obtain ⟨h1, h2, h3⟩ := registerAll_counts regs State.init hvalid hdistinct
    (by intro r _; simp [State.init, keys]) rfl
  have e1 : (registerAll State.init regs).people.map Person.getId =
      regs.map (fun r => r.inp.id) := by
    rw [h1]
    simp [State.init]
  have e2 : keys (registerAll State.init regs).idMap = regs.map (fun r => r.inp.id) := by
    rw [h2]
    simp [State.init, keys]
  have e3 : keys (registerAll State.init regs).faceDatabase =
      regs.map (fun r => r.inp.id) := by
    rw [h3]
    simp [State.init, keys]
  refine ⟨?_, ?_, ?_, e1, e2, e3⟩
  · have := congrArg List.length e1
    simpa using this
  · have := congrArg List.length e2
    rw [keys_length] at this
    simpa using this
  · have := congrArg List.length e3
    rw [keys_length] at this
    simpa using this

/-- Witness of `registrations_count`: a student with ID 7 and a teacher with ID 8. -/
theorem registrations_count_witness :
    (registerAll State.init [⟨flat 2 2 5, sampleStudent, true⟩,
      ⟨flat 2 2 9, sampleTeacher, false⟩]).people.length = 2 ∧
    (registerAll State.init [⟨flat 2 2 5, sampleStudent, true⟩,
      ⟨flat 2 2 9, sampleTeacher, false⟩]).idMap.length = 2 ∧
    (registerAll State.init [⟨flat 2 2 5, sampleStudent, true⟩,
      ⟨flat 2 2 9, sampleTeacher, false⟩]).faceDatabase.length = 2 := by
  obtain ⟨h1, h2, h3, _⟩ := registrations_count
    [⟨flat 2 2 5, sampleStudent, true⟩, ⟨flat 2 2 9, sampleTeacher, false⟩]
    (by
      intro r hr
      simp at hr
      rcases hr with rfl | rfl
      · exact Or.inl rfl
      · exact Or.inr (Or.inr (Or.inr rfl)))
    (by decide)
  exact ⟨h1, h2, h3⟩

/-! ## The branch for unrecognised persons -/

theorem unknown_ne_saved (x : String) :
    ¬ unknownPersonText = "Person details saved for: " ++ x := by
  intro h
  have := congrArg String.data h
  simp [unknownPersonText] at this

theorem unknown_ne_logged (x : String) :
    ¬ unknownPersonText = "Attendance logged for: " ++ x := by
  intro h
  have := congrArg String.data h
  simp [unknownPersonText] at this

theorem unknown_ne_name (x y : String) :
    ¬ unknownPersonText = "Name: " ++ x ++ ", ID: " ++ y := by
  intro h
  have := congrArg String.data h
  simp [unknownPersonText] at this

theorem unknown_ne_department (x : String) :
    ¬ unknownPersonText = "Department: " ++ x := by
  intro h
  have := congrArg String.data h
  simp [unknownPersonText] at this

theorem unknown_ne_subject (x : String) :
    ¬ unknownPersonText = "Subject: " ++ x := by
  intro h
  have := congrArg String.data h
  simp [unknownPersonText] at this

theorem unknown_not_displayed (p : Person) : unknownPersonText ∉ p.display := by
  cases p <;>
    simp [Person.display, unknown_ne_name, unknown_ne_department, unknown_ne_subject]

theorem savePersonDetails_quiet (s : State) (p : Person) (opens : Bool)
    (h : unknownPersonText ∉ s.console) :
    unknownPersonText ∉ (savePersonDetails s p opens).console := by
  unfold savePersonDetails
  cases opens
  · simp only [Bool.not_false, if_true, say, List.mem_append, List.mem_singleton, not_or]
    exact ⟨h, by decide⟩
  · simp only [Bool.not_true, Bool.false_eq_true, if_false, say, List.mem_append,
      List.mem_singleton, not_or]
    exact ⟨h, unknown_ne_saved _⟩

theorem logAttendance_quiet (s : State) (p : Person) (opens : Bool) (ts : String)
    (h : unknownPersonText ∉ s.console) :
    unknownPersonText ∉ (logAttendance s p opens ts).console := by
  unfold logAttendance
  cases opens
  · simp only [Bool.not_false, if_true, say, List.mem_append, List.mem_singleton, not_or]
    exact ⟨h, by decide⟩
  · simp only [Bool.not_true, Bool.false_eq_true, if_false, say, List.mem_append,
      List.mem_singleton, not_or]
    exact ⟨h, unknown_ne_logged _⟩

theorem say_quiet (s : State) (t : String) (h : unknownPersonText ∉ s.console)
    (ht : ¬ unknownPersonText = t) : unknownPersonText ∉ (say s t).console := by
  simp only [say, List.mem_append, List.mem_singleton, not_or]
  exact ⟨h, ht⟩

theorem sayAll_quiet (s : State) (ts : List String) (h : unknownPersonText ∉ s.console)
    (ht : unknownPersonText ∉ ts) : unknownPersonText ∉ (sayAll s ts).console := by
  simp only [sayAll, List.mem_append, not_or]
  exact ⟨h, ht⟩

theorem addPerson_quiet (s : State) (p : Person) (opens : Bool)
    (h : unknownPersonText ∉ s.console) :
    unknownPersonText ∉ (addPerson s p opens).console := by
  unfold addPerson
  exact savePersonDetails_quiet _ p opens h

theorem registerNewPerson_quiet (s : State) (frame : Mat) (inp : RegInput) (opens : Bool)
    (h : unknownPersonText ∉ s.console) :
    unknownPersonText ∉ (registerNewPerson s frame inp opens).console := by
  have h0 : unknownPersonText ∉ (sayAll s formPrompts).console :=
    sayAll_quiet s formPrompts h (by decide)
  by_cases hs : inp.role.toLower = 's'
  · rw [registerNewPerson_student s frame inp opens hs]
    simp only [say, List.mem_append, List.mem_singleton, not_or]
    exact ⟨addPerson_quiet _ _ opens h0, by decide⟩
  · by_cases ht : inp.role.toLower = 't'
    · rw [registerNewPerson_teacher s frame inp opens ht]
      simp only [say, List.mem_append, List.mem_singleton, not_or]
      exact ⟨addPerson_quiet _ _ opens h0, by decide⟩
    · rw [registerNewPerson_invalid s frame inp opens hs ht]
      exact say_quiet _ _ h0 (by decide)

theorem markFrame_quiet (env : Env) (s : State) (ev : FrameEvent)
    (hk : keys s.faceDatabase = keys s.idMap) (h : unknownPersonText ∉ s.console) :
    unknownPersonText ∉ (markFrame env s ev).console := by
  cases hrec : recognize env s.faceDatabase (env.cvtColor ev.frame) with
  | none =>
    rw [markFrame_of_none env s ev hrec]
    exact h
  | some id =>
    obtain ⟨person, hfind⟩ := recognize_known env s _ id hk hrec
    rw [markFrame_of_known env s ev id person hrec hfind]
    apply logAttendance_quiet
    apply sayAll_quiet _ _ _ (unknown_not_displayed person)
    exact say_quiet _ _ h (by decide)

theorem markLoop_quiet (env : Env) (events : List FrameEvent) (s : State)
    (hk : keys s.faceDatabase = keys s.idMap) (h : unknownPersonText ∉ s.console) :
    unknownPersonText ∉ (markLoop env s events).console := by
  induction events generalizing s with
  | nil => exact say_quiet _ _ h (by decide)
  | cons ev rest ih =>
    unfold markLoop
    by_cases he : ev.frame.empty = true
    · simp only [he, if_true]
      exact say_quiet _ _ h (by decide)
    · simp only [he, Bool.false_eq_true, if_false]
      obtain ⟨_, h2, h3, _⟩ := markFrame_registry env s ev hk
      by_cases hkey : ev.key = 27
      · simp only [hkey, if_true]
        exact markFrame_quiet env s ev hk h
      · simp only [hkey, if_false]
        exact ih (markFrame env s ev) (by rw [h2, h3]; exact hk)
          (markFrame_quiet env s ev hk h)

theorem markAttendance_quiet (env : Env) (s : State) (camOpens : Bool)
    (events : List FrameEvent) (hk : keys s.faceDatabase = keys s.idMap)
    (h : unknownPersonText ∉ s.console) :
    unknownPersonText ∉ (markAttendance env s camOpens events).console := by
  unfold markAttendance
  cases camOpens
  · exact say_quiet _ _ h (by decide)
  · exact markLoop_quiet env events s hk h

theorem foldl_step_quiet (env : Env) (ops : List Op) (s : State)
    (hk : keys s.faceDatabase = keys s.idMap) (h : unknownPersonText ∉ s.console) :
    unknownPersonText ∉ (ops.foldl (step env) s).console := by
  induction ops generalizing s with
  | nil => exact h
  | cons op rest ih =>
    refine ih (step env s op) (step_keys env s op hk) ?_
    cases op with
    | register frame inp opens => exact registerNewPerson_quiet s frame inp opens h
    | mark camOpens events => exact markAttendance_quiet env s camOpens events hk h

/-- Claim C10. In every state reached from the freshly constructed system by a sequence
of `registerNewPerson` and `markAttendance` operations, every ID reported by a successful
`recognize` is a key of the ID map, so the branch of `markAttendance` for an unknown person
is never taken: its text is never written to the console, and `markAttendance` leaves the
person list, the ID map, the face store and the details log as they were, also when a
detected face matches no stored reference. -/
theorem unknown_branch_never_taken (env : Env) (ops : List Op) :
    (∀ (frame : Mat) (id : Int),
      recognize env (run env ops).faceDatabase frame = some id →
        ∃ person, find (run env ops).idMap id = some person) ∧
    unknownPersonText ∉ (run env ops).console ∧
    ∀ (camOpens : Bool) (events : List FrameEvent),
      (markAttendance env (run env ops) camOpens events).people = (run env ops).people ∧
      (markAttendance env (run env ops) camOpens events).idMap = (run env ops).idMap ∧
      (markAttendance env (run env ops) camOpens events).faceDatabase =
        (run env ops).faceDatabase ∧
      (markAttendance env (run env ops) camOpens events).detailsFile =
        (run env ops).detailsFile ∧
      unknownPersonText ∉ (markAttendance env (run env ops) camOpens events).console := by
  have hq : unknownPersonText ∉ (run env ops).console :=
    foldl_step_quiet env ops State.init rfl (by simp [State.init])
  refine ⟨?_, hq, ?_⟩
  · intro frame id h
    exact recognize_known env (run env ops) frame id (run_keys env ops) h
  · intro camOpens events
    obtain ⟨h1, h2, h3, h4⟩ :=
      markAttendance_registry env (run env ops) camOpens events (run_keys env ops)
    exact ⟨h1, h2, h3, h4,
      markAttendance_quiet env (run env ops) camOpens events (run_keys env ops) hq⟩

/-- Witness of `unknown_branch_never_taken`: a student is registered, then the registered
image is shown to the camera. -/
theorem unknown_branch_never_taken_witness :
    ∃ person,
      find (run insertionEnv [Op.register (flat 2 2 5) sampleStudent true]).idMap 7 =
        some person :=
  (unknown_branch_never_taken insertionEnv
    [Op.register (flat 2 2 5) sampleStudent true]).1 (flat 2 2 5) 7 (by decide)

/-! ## Attendance ledger -/

/-- Counterexample to claim C8 as stated. A student is registered, the registered image is
shown to the camera and recognised as ID 7, which is in the registry, but the attendance
file cannot be opened for append: no line is appended to the ledger. -/
theorem matched_event_no_line :
    recognize insertionEnv
      (run insertionEnv [Op.register (flat 2 2 5) sampleStudent true]).faceDatabase
      (insertionEnv.cvtColor (sampleEvent (flat 2 2 5) false).frame) = some 7 ∧
    (find (run insertionEnv [Op.register (flat 2 2 5) sampleStudent true]).idMap 7).isSome
      = true ∧
    (markFrame insertionEnv (run insertionEnv [Op.register (flat 2 2 5) sampleStudent true])
      (sampleEvent (flat 2 2 5) false)).attendanceFile =
      (run insertionEnv [Op.register (flat 2 2 5) sampleStudent true]).attendanceFile := by
  refine ⟨?_, ?_, ?_⟩ <;> decide

theorem logAttendance_open (s : State) (p : Person) (ts : String) :
    (logAttendance s p true ts).attendanceFile = s.attendanceFile ++
      [match p with
        | .student name id department =>
          "Time: " ++ ts ++ ", ID: " ++ toString id ++ ", Name: " ++ name ++
            ", Department: " ++ department
        | .teacher name id subject =>
          "Time: " ++ ts ++ ", ID: " ++ toString id ++ ", Name: " ++ name ++
            ", Subject: " ++ subject
        | .base name id => "Time: " ++ ts ++ ", ID: " ++ toString id ++ ", Name: " ++ name] := by
  cases p <;> simp [logAttendance, say, Person.getId, Person.getName,
    Person.getDepartment, Person.getSubject]

theorem logAttendance_closed (s : State) (p : Person) (ts : String) :
    (logAttendance s p false ts).attendanceFile = s.attendanceFile := by
  simp [logAttendance, say]

/-- Claim C8, amended. For every ledger content and every person of the registry, a
matched attendance event (`recognize` returns an ID present in the ID map) in which the
attendance file can be opened for append appends exactly one line to the ledger, leaving
every earlier line unchanged, and that line is made of the timestamp, the matched
person's ID, their name and their role attribute (the department for a Student, the
subject for a Teacher); when the file cannot be opened the ledger is left unchanged. -/
theorem matched_event_appends_line (env : Env) (s : State) (ev : FrameEvent) (id : Int)
    (person : Person)
    (hrec : recognize env s.faceDatabase (env.cvtColor ev.frame) = some id)
    (hfind : find s.idMap id = some person) :
    (ev.ledgerOpens = true →
      (∀ name i department, person = Person.student name i department →
        (markFrame env s ev).attendanceFile = s.attendanceFile ++
          ["Time: " ++ ev.timestamp ++ ", ID: " ++ toString i ++ ", Name: " ++ name ++
            ", Department: " ++ department]) ∧
      (∀ name i subject, person = Person.teacher name i subject →
        (markFrame env s ev).attendanceFile = s.attendanceFile ++
          ["Time: " ++ ev.timestamp ++ ", ID: " ++ toString i ++ ", Name: " ++ name ++
            ", Subject: " ++ subject]) ∧
      (markFrame env s ev).attendanceFile.length = s.attendanceFile.length + 1) ∧
    (ev.ledgerOpens = false →
      (markFrame env s ev).attendanceFile = s.attendanceFile) := by
  rw [markFrame_of_known env s ev id person hrec hfind]
  constructor
  · intro ho
    rw [ho, logAttendance_open]
    refine ⟨?_, ?_, ?_⟩
    · rintro name i department rfl
      rfl
    · rintro name i subject rfl
      rfl
    · simp [say, sayAll]
  · intro hc
    rw [hc, logAttendance_closed]
    rfl

/-- Witness of `matched_event_appends_line`: a registered student is recognised and the
attendance file opens. -/
theorem matched_event_appends_line_witness :
    (markFrame insertionEnv (run insertionEnv [Op.register (flat 2 2 5) sampleStudent true])
      (sampleEvent (flat 2 2 5) true)).attendanceFile =
    (run insertionEnv [Op.register (flat 2 2 5) sampleStudent true]).attendanceFile ++
      ["Time: " ++ (sampleEvent (flat 2 2 5) true).timestamp ++ ", ID: " ++
        toString (7 : Int) ++ ", Name: " ++ "Ada" ++ ", Department: " ++ "Maths"] :=
  ((matched_event_appends_line insertionEnv
    (run insertionEnv [Op.register (flat 2 2 5) sampleStudent true])
    (sampleEvent (flat 2 2 5) true) 7 (Person.student "Ada" 7 "Maths")
    (by decide) rfl).1 rfl).1 "Ada" 7 "Maths" rfl

/-! ## Exit status -/

theorem menuLoop_exit (env : Env) (inputs : List MenuInput) (s : State)
    (h : ∃ inp ∈ inputs, inp.choice = 3) :
    (menuLoop env s inputs).exitStatus = some 0 := by
  induction inputs generalizing s with
  | nil => simp at h
  | cons inp rest ih =>
    have hrest : inp.choice ≠ 3 → ∃ q ∈ rest, q.choice = 3 := by
      intro hne
      obtain ⟨q, hq, hq3⟩ := h
      rcases List.mem_cons.mp hq with rfl | hq
      · exact absurd hq3 hne
      · exact ⟨q, hq, hq3⟩
    unfold menuLoop
    by_cases h1 : inp.choice = 1
    · simp only [h1, if_true]
      exact ih _ (hrest (by rw [h1]; decide))
    · by_cases h2 : inp.choice = 2
      · have h21 : ¬ (2 : Int) = 1 := by decide
        simp only [h2, h21, if_true, if_false]
        split
        · exact ih _ (hrest (by rw [h2]; decide))
        · split
          · exact ih _ (hrest (by rw [h2]; decide))
          · exact ih _ (hrest (by rw [h2]; decide))
      · by_cases h3 : inp.choice = 3
        · have h31 : ¬ (3 : Int) = 1 := by decide
          have h32 : ¬ (3 : Int) = 2 := by decide
          simp only [h3, h31, h32, if_true, if_false]
        · simp only [h1, h2, h3, if_false]
          exact ih _ (hrest h3)

theorem menuLoop_status (env : Env) (inputs : List MenuInput) (s : State) :
    (menuLoop env s inputs).exitStatus = none ∨
      (menuLoop env s inputs).exitStatus = some 0 := by
  induction inputs generalizing s with
  | nil => exact Or.inl rfl
  | cons inp rest ih =>
    unfold menuLoop
    simp only
    split
    · exact ih _
    · split
      · split
        · exact ih _
        · split
          · exact ih _
          · exact ih _
      · split
        · exact Or.inr rfl
        · exact ih _

/-- Counterexample to claim C9 as stated. When the detector model cannot be loaded `main`
terminates with status 0, the status it also returns after menu option 3. -/
theorem main_setup_failure_status :
    (main insertionEnv false []).exitStatus = some 0 ∧
    (main insertionEnv true [sampleExit]).exitStatus = some 0 := by
  refine ⟨?_, ?_⟩ <;> decide

/-- Claim C9, amended. The exit status of `main` is 0 in every run that terminates: when
the operator chooses menu option 3, `main` terminates with status 0; when the detector
model cannot be loaded, `main` writes the two diagnostics, never enters the menu (the menu
text is not written, and registry, face store and files stay empty) and terminates with
status 0 as well. -/
theorem main_exit_status (env : Env) (inputs : List MenuInput) :
    (∀ modelLoads : Bool, (∃ inp ∈ inputs, inp.choice = 3) →
      (main env modelLoads inputs).exitStatus = some 0) ∧
    (main env false inputs).exitStatus = some 0 ∧
    (main env false inputs).final.console = setupFailureTexts ∧
    menuText ∉ (main env false inputs).final.console ∧
    (main env false inputs).final.people = [] ∧
    (main env false inputs).final.idMap = [] ∧
    (main env false inputs).final.faceDatabase = [] ∧
    (main env false inputs).final.detailsFile = [] ∧
    (main env false inputs).final.attendanceFile = [] ∧
    (∀ modelLoads : Bool, (main env modelLoads inputs).exitStatus = none ∨
      (main env modelLoads inputs).exitStatus = some 0) := by
  have hconsole : (main env false inputs).final.console = setupFailureTexts := by
    show [] ++ [_] ++ [_] = setupFailureTexts
    decide
  refine ⟨?_, rfl, hconsole, ?_, rfl, rfl, rfl, rfl, rfl, ?_⟩
  · intro modelLoads h
    cases modelLoads
    · rfl
    · exact menuLoop_exit env inputs _ h
  · rw [hconsole]
    decide
  · intro modelLoads
    cases modelLoads
    · exact Or.inr rfl
    · exact menuLoop_status env inputs _

/-- Witness of `main_exit_status`: the operator chooses option 3 at once. -/
theorem main_exit_status_witness :
    (main insertionEnv true [sampleExit]).exitStatus = some 0 :=
  (main_exit_status insertionEnv [sampleExit]).1 true ⟨sampleExit, by simp, rfl⟩

end FaceAttendance
